import Mathlib

/-!
Verification development for the ghostautomation content-generation agent.

The definitions below are a shallow embedding of the TypeScript sources:
  * `src/utils/metadata.ts` (slug / meta-title helpers),
  * `src/services/ghost.ts` (duplicate matcher, draft creation payload),
  * `src/services/ai.ts` (free-text article response parsing),
  * the weekly scheduler (topic-coverage heuristic),
  * `src/strands-agent/agent.ts` (tool registry, tool executor, agent loop).

Strings are modelled over their character lists; JavaScript regular
expressions are embedded as bespoke, structurally recursive matchers that
mirror the exact backtracking behaviour of the source patterns.  All
recursion is structural (on an explicit fuel bounded by the input length
where needed) so that every definition evaluates inside the kernel.
JavaScript string semantics are modelled for ASCII input: `toLowerCase`
is `Char.toLower`, `\s` is the ASCII whitespace class.
-/

namespace GhostAuto

/-- ASCII model of the JavaScript `\s` character class. -/
def isSpaceJS (c : Char) : Bool :=
  c = ' ' || c = '\t' || c = '\n' || c = '\r' || c = '\x0b' || c = '\x0c'

/-- JavaScript `\w`: ASCII letters, digits and underscore. -/
def isWordCharJS (c : Char) : Bool :=
  c.isAlphanum || c = '_'

/-- JavaScript `String.prototype.toLowerCase`, ASCII fragment. -/
def jsToLower (s : String) : String :=
  ⟨s.data.map Char.toLower⟩

/-- Drop trailing characters satisfying `p` (helper for trimming). -/
def dropTrailing (p : Char → Bool) (cs : List Char) : List Char :=
  ((cs.reverse.dropWhile p).reverse)

/-- JavaScript `String.prototype.trim` on character lists. -/
def trimL (cs : List Char) : List Char :=
  dropTrailing isSpaceJS (cs.dropWhile isSpaceJS)

/-- String version of `trimL`. -/
def trimS (s : String) : String := ⟨trimL s.data⟩

/-- Does `pat` occur as a contiguous substring of `hay`?  (JS `includes`.) -/
def containsSub (hay pat : List Char) : Bool :=
  match hay with
  | [] => pat.isEmpty
  | _ :: tl => pat.isPrefixOf hay || containsSub tl pat

/-- String version of `containsSub`. -/
def containsS (hay pat : String) : Bool := containsSub hay.data pat.data

/-- Split on runs of whitespace, returning the non-empty fields
    (fuel-driven so the recursion is structural).
    JS `split(/\s+/)` can additionally yield one leading empty field;
    every use site filters for words longer than 4 characters, so the
    empty field never survives and is omitted here. -/
def splitWsF : Nat → List Char → List (List Char)
  | 0, _ => []
  | fuel + 1, cs =>
    let cs1 := cs.dropWhile isSpaceJS
    match cs1 with
    | [] => []
    | _ :: _ =>
      let w := cs1.takeWhile (fun c => !isSpaceJS c)
      w :: splitWsF fuel (cs1.drop w.length)

/-- Split a string on whitespace runs. -/
def splitWsL (cs : List Char) : List (List Char) :=
  splitWsF (cs.length + 1) cs

/-- JS `split(',')` on character lists (keeps empty fields). -/
def splitCommaL : List Char → List (List Char)
  | [] => [[]]
  | c :: cs =>
    if c = ',' then [] :: splitCommaL cs
    else
      match splitCommaL cs with
      | [] => [[c]]
      | f :: fs => (c :: f) :: fs

/-- Model of a `[\s_-]` character (the run-collapsing class in `generateSlug`). -/
def isSlugSep (c : Char) : Bool :=
  isSpaceJS c || c = '_' || c = '-'

/-- Replace each maximal run of `[\s_-]` characters by a single dash
    (the `.replace(/[\s_-]+/g, '-')` step of `generateSlug`). -/
def collapseSeps : Bool → List Char → List Char
  | _, [] => []
  | inRun, c :: cs =>
    if isSlugSep c then
      if inRun then collapseSeps true cs else '-' :: collapseSeps true cs
    else c :: collapseSeps false cs

/-- Model of `generateSlug` from `src/utils/metadata.ts`:
    lower-case, trim, drop `[^\w\s-]`, collapse `[\s_-]+` to `-`, and
    strip leading/trailing dashes. -/
def generateSlug (title : String) : String :=
  let step1 := (jsToLower title).data
  let step2 := trimL step1
  let step3 := step2.filter (fun c => isWordCharJS c || isSpaceJS c || c = '-')
  let step4 := collapseSeps false step3
  let step5 := dropTrailing (· = '-') (step4.dropWhile (· = '-'))
  ⟨step5⟩

/-- Model of `truncateText` from `src/utils/metadata.ts`. -/
def truncateText (text : String) (maxLength : Nat) : String :=
  if text.length ≤ maxLength then text
  else trimS (⟨text.data.take (maxLength - 3)⟩) ++ "..."

/-- Model of `generateMetaTitle` from `src/utils/metadata.ts`
    (suffix written with an escaped apostrophe). -/
def generateMetaTitle (title : String) : String :=
  let suffix := " | Pretty\x27s Perspectives"
  let maxTitleLength := 60 - suffix.length
  truncateText title maxTitleLength ++ suffix

/-- Model of `generateMetaDescription` from `src/utils/metadata.ts`. -/
def generateMetaDescription (excerpt : String) : String :=
  truncateText excerpt 155

/-- One row of the `ExistingArticleIndex` fetched from Ghost. -/
structure ExistingArticle where
  id : String
  title : String
  slug : String
  publishedAt : Option String
deriving DecidableEq

/-- Result record of `checkArticleExists` in `src/services/ghost.ts`. -/
structure DuplicateCheckResult where
  exactMatch : Bool
  similarArticles : List ExistingArticle
deriving DecidableEq

/-- Model of `checkArticleExists` from `src/services/ghost.ts`, as a pure function of
    the candidate title and the fetched article index. -/
def checkArticleExists (title : String) (articles : List ExistingArticle) :
    DuplicateCheckResult :=
  let slug := generateSlug title
  let lowerTitle := jsToLower title
  let exactMatch := articles.any fun article =>
    article.slug = slug || jsToLower article.title = lowerTitle
  let similarArticles := articles.filter fun article =>
    containsS (jsToLower article.title) lowerTitle ||
    containsS lowerTitle (jsToLower article.title)
  ⟨exactMatch, similarArticles⟩

/-- JavaScript truthiness of the `DuplicateCheckResult` object: any object is
    truthy, so `if (exists)` in the generators takes the blocking branch for
    every result, not only for exact matches. -/
def jsTruthyDup (_ : DuplicateCheckResult) : Bool := true

/-- The duplicate gate of `generateFromInsight`
    (`src/generators/insight-article.ts`): `checkArticleExists(insight.slice(0, 50))`
    followed by `if (exists) return failure`. -/
def generateFromInsightBlocked (insight : String)
    (articles : List ExistingArticle) : Bool :=
  jsTruthyDup (checkArticleExists (insight.take 50) articles)

/-- The duplicate gate of `generateSEOContent` (`src/generators/seo-content.ts`). -/
def generateSEOContentBlocked (topic : String)
    (articles : List ExistingArticle) : Bool :=
  jsTruthyDup (checkArticleExists topic articles)

/-- The duplicate gate of `generateThemeRoundup` (theme-roundup generator). -/
def generateThemeRoundupBlocked (theme : String)
    (articles : List ExistingArticle) : Bool :=
  jsTruthyDup (checkArticleExists theme articles)

/-! ### Weekly scheduler: topic-coverage heuristic -/

/-- The fixed key-phrase vocabulary of `extractKeyPhrases` in the weekly
    scheduler. -/
def keyTerms : List String :=
  ["instagram", "tiktok", "social media", "marketing", "pricing",
   "client experience", "vendor relationships", "wedding photography",
   "wedding planner", "florist", "venue", "videography", "catering",
   "referrals", "booking", "leads", "seo", "email marketing",
   "portfolio", "branding", "networking", "collaboration", "trends",
   "gen z", "millennial", "ai tools", "automation", "systems"]

/-- Model of `extractKeyPhrases`: the key terms occurring as substrings of the
    (already lower-cased) text. -/
def extractKeyPhrases (text : String) : List String :=
  keyTerms.filter fun term => containsS text term

/-- The number of key phrases of the topic that match a key phrase of the
    title, where a match is equality or substring containment either way
    (the `matchingPhrases` filter of `isTopicAlreadyCovered`). -/
def matchingPhraseCount (topicLower titleLower : String) : Nat :=
  let topicKeyPhrases := extractKeyPhrases topicLower
  let titleKeyPhrases := extractKeyPhrases titleLower
  (topicKeyPhrases.filter fun phrase =>
    titleKeyPhrases.any fun tp =>
      tp = phrase || containsS tp phrase || containsS phrase tp).length

/-- The words longer than 4 characters of a (lower-cased) string
    (`split(/\s+/).filter(w => w.length > 4)`). -/
def longWords (lower : String) : List (List Char) :=
  (splitWsL lower.data).filter fun w => w.length > 4

/-- The word-overlap test of `isTopicAlreadyCovered`:
    `wordMatches / topicWords.length > 0.6` with `topicWords.length > 0`.
    The floating-point comparison is modelled exactly on rationals by
    cross-multiplication (`5 * wordMatches > 3 * topicWords.length`). -/
def wordOverlapExceeds (topicLower titleLower : String) : Bool :=
  let topicWords := longWords topicLower
  let titleWords := longWords titleLower
  let wordMatches := (topicWords.filter fun w => titleWords.contains w).length
  topicWords.length > 0 && 5 * wordMatches > 3 * topicWords.length

/-- The per-article body of the `for` loop in `isTopicAlreadyCovered`:
    flagged when at least 2 key phrases match or the long-word overlap
    ratio exceeds 0.6. -/
def coveredByArticle (topicLower : String) (article : ExistingArticle) : Bool :=
  let titleLower := jsToLower article.title
  matchingPhraseCount topicLower titleLower ≥ 2 ||
  wordOverlapExceeds topicLower titleLower

/-- Model of `isTopicAlreadyCovered` from the weekly scheduler. -/
def isTopicAlreadyCovered (topic : String)
    (existingArticles : List ExistingArticle) : Bool :=
  let topicLower := jsToLower topic
  existingArticles.any (coveredByArticle topicLower)

/-! ### Response parser (`parseArticleResponse` in `src/services/ai.ts`)

Each JS regular expression of the parser is embedded as a matcher that
returns the capture of the leftmost match, reproducing the greedy /
lazy backtracking of the concrete pattern.  Scanning over match start
positions is fuelled by the input length so all recursion is structural. -/

/-- Case-insensitive literal prefix: strips `lit` (compared via
    `Char.toLower`) and returns the remainder. -/
def stripCILit : List Char → List Char → Option (List Char)
  | [], cs => some cs
  | _ :: _, [] => none
  | p :: ps, c :: cs =>
    if c.toLower = p.toLower then stripCILit ps cs else none

/-- Is `p` a case-insensitive prefix of `cs`? -/
def ciStartsWith (p cs : List Char) : Bool :=
  (stripCILit p cs).isSome

/-- Generic leftmost-match scan: try the position parser at every suffix. -/
def scanForF (tryAt : List Char → Option (List Char)) :
    Nat → List Char → Option (List Char)
  | 0, _ => none
  | _ + 1, [] => tryAt []
  | fuel + 1, c :: cs =>
    match tryAt (c :: cs) with
    | some r => some r
    | none => scanForF tryAt fuel cs

/-- Leftmost-match scan restricted to line starts (for `/^.../m` patterns). -/
def scanLineStartsF (tryAt : List Char → Option (List Char)) :
    Nat → List Char → Option (List Char)
  | 0, _ => none
  | fuel + 1, cs =>
    match tryAt cs with
    | some r => some r
    | none =>
      match cs.dropWhile (· ≠ '\n') with
      | _ :: r => scanLineStartsF tryAt fuel r
      | [] => none

/-- Split at the first occurrence of `pat`, returning the text before it and
    the text after it. -/
def splitAtSub (pat : List Char) :
    Nat → List Char → Option (List Char × List Char)
  | 0, _ => none
  | _ + 1, [] => if pat.isPrefixOf ([] : List Char) then some ([], []) else none
  | fuel + 1, c :: cs =>
    if pat.isPrefixOf (c :: cs) then some ([], (c :: cs).drop pat.length)
    else
      match splitAtSub pat fuel cs with
      | some (b, a) => some (c :: b, a)
      | none => none

/-- A double or single quote (the `["']` class; apostrophe written escaped). -/
def isQuoteC (c : Char) : Bool := c = '"' || c = '\x27'

/-- A character matched by `[^"'\n]`. -/
def isNotQNL (c : Char) : Bool := !(isQuoteC c || c = '\n')

/-- The `["']?([^"'\n]+)` step at a fixed position: optionally consume one
    quote, then capture a non-empty greedy run of `[^"'\n]` characters. -/
def contQuoteCap (t : List Char) : Option (List Char) :=
  let t2 := match t with
    | c :: r => if isQuoteC c then r else t
    | [] => t
  let cap := t2.takeWhile isNotQNL
  if cap.isEmpty then none else some cap

/-- The `\s*["']?([^"'\n]+)["']?` tail shared by the label patterns,
    with the exact greedy backtracking of `\s*`: if the capture after the
    maximal whitespace run is empty, the star gives back one whitespace
    character, which then becomes the capture. -/
def capTail (s : List Char) : Option (List Char) :=
  let w := s.takeWhile isSpaceJS
  let afterW := s.drop w.length
  match contQuoteCap afterW with
  | some cap => some cap
  | none => if w.isEmpty then none else some [w.getLastD ' ']

/-- Matcher for `/LIT\s*["']?([^"'\n]+)["']?/i` at a fixed position. -/
def tryLabelPat (lit : List Char) (cs : List Char) : Option (List Char) :=
  match stripCILit lit cs with
  | some rest => capTail rest
  | none => none

/-- Rightmost `**` pair inside a `[:*]` run that leaves a non-empty
    remainder (backtracking helper for the `[:\*]*\*\*` idiom). -/
def lastPairProper : List Char → Option (List Char)
  | a :: b :: c :: rest =>
    match lastPairProper (b :: c :: rest) with
    | some r => some r
    | none => if a = '*' && b = '*' then some (c :: rest) else none
  | _ => none

/-- Matcher for `/\*\*WORD[:\*]*\*\*\s*["']?([^"'\n]+)["']?/i` at a fixed
    position (used with WORD = `Title`, `Meta description`, `Excerpt`).
    The greedy `[:\*]*` first tries to end the run with the final `**`
    (remainder handled by `capTail`); on failure it backtracks to the
    rightmost interior `**`, after which the leftover run characters are
    swallowed by the capture class. -/
def tryStarPat (word : List Char) (cs : List Char) : Option (List Char) :=
  match cs with
  | '*' :: '*' :: rest =>
    (match stripCILit word rest with
     | some rest2 =>
       let run := rest2.takeWhile (fun c => c = ':' || c = '*')
       let afterRun := rest2.drop run.length
       let endsWithPair := run.length ≥ 2 && run.drop (run.length - 2) = ['*', '*']
       (match (if endsWithPair then capTail afterRun else none) with
        | some cap => some cap
        | none =>
          match lastPairProper run with
          | some leftover => some (leftover ++ afterRun.takeWhile isNotQNL)
          | none => none)
     | none => none)
  | _ => none

/-- Matcher for `/^#\s+(.+)$/m` at a line start.  `\s` includes the
    newline, so the greedy run may cross lines; if it reaches the end of
    the input it backtracks to capture the trailing non-newline
    whitespace (keeping `\s+` non-empty). -/
def tryHashTitle : List Char → Option (List Char)
  | '#' :: rest =>
    let w := rest.takeWhile isSpaceJS
    if w.isEmpty then none
    else
      let afterW := rest.drop w.length
      let cap := afterW.takeWhile (· ≠ '\n')
      if !cap.isEmpty then some cap
      else
        let tailNN := (w.reverse.takeWhile (fun c => c ≠ '\n')).reverse
        if tailNN.isEmpty || tailNN.length = w.length then none else some tailNN
  | _ => none

/-- Matcher for `/Tags?:\s*(.+)/i` at a fixed position. -/
def tryTags (cs : List Char) : Option (List Char) :=
  match stripCILit "tag".data cs with
  | none => none
  | some rest =>
    let afterColon : Option (List Char) :=
      match rest with
      | c :: ':' :: r2 =>
        if c.toLower = 's' then some r2
        else match rest with | ':' :: r3 => some r3 | _ => none
      | ':' :: r2 => some r2
      | _ => none
    match afterColon with
    | none => none
    | some rest2 =>
      let w := rest2.takeWhile isSpaceJS
      let afterW := rest2.drop w.length
      let cap := afterW.takeWhile (· ≠ '\n')
      if !cap.isEmpty then some cap
      else
        let tailNN := (w.reverse.takeWhile (fun c => c ≠ '\n')).reverse
        if tailNN.isEmpty then none else some tailNN

/-- Lazy `(.*?)` capture up to a case-insensitive closing literal;
    `.` does not match the newline. -/
def lazyCaptureF (close : List Char) : Nat → List Char → Option (List Char)
  | 0, _ => none
  | fuel + 1, cs =>
    if ciStartsWith close cs then some []
    else
      match cs with
      | [] => none
      | c :: rest =>
        if c = '\n' then none
        else (lazyCaptureF close fuel rest).map (c :: ·)

/-- Matcher for `/<hN[^>]*>(.*?)<\/hN>/i` at a fixed position. -/
def tryHeading (tag : List Char) (cs : List Char) : Option (List Char) :=
  match stripCILit ('<' :: tag) cs with
  | none => none
  | some rest =>
    let run := rest.takeWhile (· ≠ '>')
    match rest.drop run.length with
    | '>' :: r => lazyCaptureF ('<' :: '/' :: (tag ++ ['>'])) (r.length + 1) r
    | _ => none

/-- Matcher for `/\*\*([A-Z][^*\n]{10,80})\*\*/` at a fixed position. -/
def tryStrong : List Char → Option (List Char)
  | '*' :: '*' :: c :: rest =>
    if 'A' ≤ c && c ≤ 'Z' then
      let run := rest.takeWhile (fun x => !(x = '*' || x = '\n'))
      if 10 ≤ run.length && run.length ≤ 80 then
        match rest.drop run.length with
        | '*' :: '*' :: _ => some (c :: run)
        | _ => none
      else none
    else none
  | _ => none

/-- Model of `<[^>]+>` at a fixed position: an open tag with non-empty body. -/
def parseTag : List Char → Option (List Char)
  | '<' :: rest =>
    let run := rest.takeWhile (· ≠ '>')
    if run.isEmpty then none
    else
      match rest.drop run.length with
      | '>' :: r => some r
      | _ => none
  | _ => none

/-- Model of `<\/[^>]+>` at a fixed position: a closing tag with non-empty body. -/
def parseCloseTag : List Char → Option (List Char)
  | '<' :: '/' :: rest =>
    let run := rest.takeWhile (· ≠ '>')
    if run.isEmpty then none
    else
      match rest.drop run.length with
      | '>' :: r => some r
      | _ => none
  | _ => none

/-- Remainder after the rightmost closing tag anywhere in the list
    (the greedy `[\s\S]*` of the direct-HTML pattern). -/
def lastCloseRem : List Char → Option (List Char)
  | [] => none
  | c :: cs =>
    match lastCloseRem cs with
    | some r => some r
    | none => parseCloseTag (c :: cs)

/-- Matcher for `/<[^>]+>[\s\S]*<\/[^>]+>/` at a fixed position,
    returning the whole match (`match[0]`). -/
def tryDirect (cs : List Char) : Option (List Char) :=
  match parseTag cs with
  | some rest =>
    (match lastCloseRem rest with
     | some r => some (cs.take (cs.length - r.length))
     | none => none)
  | none => none

/-- Model of `text.match(/```html\s*([\s\S]*?)```/)`: group 1 (before the caller's
    `.trim()`), i.e. the text between the fence markers after the greedy
    whitespace skip. -/
def fencedHtmlGroup (text : List Char) : Option (List Char) :=
  match splitAtSub "```html".data (text.length + 1) text with
  | none => none
  | some (_, rest) =>
    match splitAtSub "```".data (rest.length + 1) rest with
    | none => none
    | some (mid, _) => some (mid.dropWhile isSpaceJS)

/-- Model of `text.match(/<[^>]+>[\s\S]*<\/[^>]+>/)`, leftmost match. -/
def directHtmlMatch (text : List Char) : Option (List Char) :=
  scanForF tryDirect (text.length + 1) text

/-- The HTML-extraction step of `parseArticleResponse`: the trimmed fenced
    block if present, else the first direct tag span, else empty. -/
def extractHtmlRaw (text : List Char) : List Char :=
  match fencedHtmlGroup text with
  | some g => trimL g
  | none =>
    match directHtmlMatch text with
    | some m => m
    | none => []

/-- Model of `replace(/PAT/g, REPL)` for a literal pattern: left-to-right,
    non-overlapping. -/
def replaceAllF (pat repl : List Char) : Nat → List Char → List Char
  | 0, cs => cs
  | _ + 1, [] => []
  | fuel + 1, c :: cs =>
    if pat.isPrefixOf (c :: cs) then
      repl ++ replaceAllF pat repl fuel ((c :: cs).drop pat.length)
    else c :: replaceAllF pat repl fuel cs

/-- Wrapper for `replaceAllF` with fuel set from the input length. -/
def replaceAllL (pat repl cs : List Char) : List Char :=
  replaceAllF pat repl (cs.length + 1) cs

/-- The HTML clean-up chain of `parseArticleResponse`: unescape quotes,
    apostrophes, underscores, asterisks, literal `\n`, and double-encoded
    entities, in source order. -/
def unescapeHtmlL (cs : List Char) : List Char :=
  let s1 := replaceAllL ['\\', '"'] ['"'] cs
  let s2 := replaceAllL ['\\', '\x27'] ['\x27'] s1
  let s3 := replaceAllL ['\\', '_'] ['_'] s2
  let s4 := replaceAllL ['\\', '*'] ['*'] s3
  let s5 := replaceAllL ['\\', 'n'] ['\n'] s4
  let s6 := replaceAllL "&amp;quot;".data ['"'] s5
  replaceAllL "&amp;#39;".data ['\x27'] s6

/-- Model of `replace(/<[^>]*>/g, '')`: drop every tag-like span. -/
def stripTagsF : Nat → List Char → List Char
  | 0, cs => cs
  | _ + 1, [] => []
  | fuel + 1, c :: cs =>
    if c = '<' then
      let run := cs.takeWhile (· ≠ '>')
      match cs.drop run.length with
      | '>' :: r => stripTagsF fuel r
      | _ => c :: stripTagsF fuel cs
    else c :: stripTagsF fuel cs

/-- Wrapper for `stripTagsF` with fuel set from the input length. -/
def stripTags (cs : List Char) : List Char :=
  stripTagsF (cs.length + 1) cs

/-- Model of `replace(/^\*+|\*+$/g, '')`: strip leading and trailing asterisk runs. -/
def stripStarsEnds (cs : List Char) : List Char :=
  dropTrailing (· = '*') (cs.dropWhile (· = '*'))

/-- Model of `replace(/^["']|["']$/g, '')`: strip one leading and one trailing quote. -/
def stripOneQuoteEnds (cs : List Char) : List Char :=
  let cs1 := match cs with
    | c :: r => if isQuoteC c then r else cs
    | [] => cs
  match cs1.getLast? with
  | some c => if isQuoteC c then cs1.dropLast else cs1
  | none => cs1

/-- The four explicit title label patterns, in source order. -/
def titleLabelMatches (text : List Char) : List (Option (List Char)) :=
  [scanForF (tryStarPat "title".data) (text.length + 1) text,
   scanForF (tryLabelPat "title:".data) (text.length + 1) text,
   scanLineStartsF tryHashTitle (text.length + 1) text,
   scanForF (tryLabelPat "suggested title:".data) (text.length + 1) text]

/-- The title-pattern loop: the first capture with non-empty trim wins and
    is cleaned (`trim`, strip `*` runs, strip one quote pair). -/
def firstUsableTitle : List (Option (List Char)) → List Char
  | [] => []
  | none :: rest => firstUsableTitle rest
  | some cap :: rest =>
    let t := trimL cap
    if t.isEmpty then firstUsableTitle rest
    else stripOneQuoteEnds (stripStarsEnds t)

/-- The label-based title extraction (patterns 1–4 of the source loop). -/
def labelTitle (text : List Char) : List Char :=
  firstUsableTitle (titleLabelMatches text)

/-- Fallback: first `<h1>` of the extracted HTML, tags stripped, trimmed. -/
def h1Title (html : List Char) : List Char :=
  match scanForF (tryHeading "h1".data) (html.length + 1) html with
  | some inner => trimL (stripTags inner)
  | none => []

/-- Leftmost match of the bold-phrase pattern over the whole text. -/
def strongMatchM (text : List Char) : Option (List Char) :=
  scanForF tryStrong (text.length + 1) text

/-- Fallback: first bold short phrase of the raw text, trimmed. -/
def strongTitle (text : List Char) : List Char :=
  match strongMatchM text with
  | some cap => trimL cap
  | none => []

/-- Fallback: first `<h2>` of the extracted HTML, tags stripped, trimmed. -/
def h2Title (html : List Char) : List Char :=
  match scanForF (tryHeading "h2".data) (html.length + 1) html with
  | some inner => trimL (stripTags inner)
  | none => []

/-- Final title clean-up:
    `replace(/^["'\*]+|["'\*]+$/g, '').replace(/\\"/g, '"').trim()`. -/
def finalCleanTitle (cs : List Char) : List Char :=
  let isQS := fun c => isQuoteC c || c = '*'
  trimL (replaceAllL ['\\', '"'] ['"'] (dropTrailing isQS (cs.dropWhile isQS)))

/-- The full title extraction chain of `parseArticleResponse`: label
    patterns, then `<h1>`, then bold phrase, then `<h2>`, each attempted
    only while the title is still empty; then the final clean-up. -/
def titleOf (text htmlRaw : List Char) : List Char :=
  let t1 := labelTitle text
  let t2 := if t1.isEmpty then h1Title htmlRaw else t1
  let t3 := if t2.isEmpty then strongTitle text else t2
  let t4 := if t3.isEmpty then h2Title htmlRaw else t3
  finalCleanTitle t4

/-- Leftmost match of the `/Tags?:\s*(.+)/i` pattern over the whole text. -/
def tagsMatchM (text : List Char) : Option (List Char) :=
  scanForF tryTags (text.length + 1) text

/-- Tag extraction: `/Tags?:\s*(.+)/i`, split on commas, each tag trimmed,
    lower-cased, stripped of quote/asterisk runs and re-trimmed; empty
    entries dropped. -/
def tagsOf (text : List Char) : List String :=
  match tagsMatchM text with
  | none => []
  | some cap =>
    (((splitCommaL cap).map fun t =>
        trimL (dropTrailing (fun c => isQuoteC c || c = '*')
          (((jsToLower ⟨trimL t⟩).data).dropWhile (fun c => isQuoteC c || c = '*')))).filter
      fun t => t.length > 0).map fun t => (⟨t⟩ : String)

/-- Meta-description extraction: first of the two patterns that matches. -/
def firstMatchOf : List (Option (List Char)) → Option (List Char)
  | [] => none
  | some c :: _ => some c
  | none :: rest => firstMatchOf rest

/-- Matcher for `/Meta\s*[Dd]escription:\s*["']?([^"'\n]+)["']?/i` at a
    fixed position. -/
def tryMeta1 (cs : List Char) : Option (List Char) :=
  match stripCILit "meta".data cs with
  | none => none
  | some rest =>
    match stripCILit "description:".data (rest.dropWhile isSpaceJS) with
    | none => none
    | some rest2 => capTail rest2

/-- Leftmost match of the first meta-description pattern. -/
def meta1MatchM (text : List Char) : Option (List Char) :=
  scanForF tryMeta1 (text.length + 1) text

/-- Leftmost match of the second (bold) meta-description pattern. -/
def meta2MatchM (text : List Char) : Option (List Char) :=
  scanForF (tryStarPat "meta description".data) (text.length + 1) text

/-- The meta-description field: first matching pattern, trimmed. -/
def metaOf (text : List Char) : List Char :=
  match firstMatchOf [meta1MatchM text, meta2MatchM text] with
  | some c => trimL c
  | none => []

/-- Leftmost match of the `Excerpt:` label pattern. -/
def exc1MatchM (text : List Char) : Option (List Char) :=
  scanForF (tryLabelPat "excerpt:".data) (text.length + 1) text

/-- Leftmost match of the bold excerpt pattern. -/
def exc2MatchM (text : List Char) : Option (List Char) :=
  scanForF (tryStarPat "excerpt".data) (text.length + 1) text

/-- Leftmost match of the `Custom excerpt:` label pattern. -/
def exc3MatchM (text : List Char) : Option (List Char) :=
  scanForF (tryLabelPat "custom excerpt:".data) (text.length + 1) text

/-- The excerpt field: first of the three patterns, trimmed, asterisk runs
    stripped, re-trimmed. -/
def excerptOf (text : List Char) : List Char :=
  match firstMatchOf [exc1MatchM text, exc2MatchM text, exc3MatchM text] with
  | some c => trimL (stripStarsEnds (trimL c))
  | none => []

/-- The `ArticleDraft` record assembled by the parser (field order as in
    the source object literal). -/
structure ArticleDraft where
  title : String
  slug : String
  html : String
  excerpt : String
  tags : List String
  metaTitle : String
  metaDescription : String
  status : String
deriving DecidableEq

/-- The full return value of `parseArticleResponse`. -/
structure ArticleGenerationResult where
  article : ArticleDraft
  suggestedTags : List String
  metaTitle : String
  metaDescription : String
  excerpt : String
deriving DecidableEq

/-- Model of `parseArticleResponse` from `src/services/ai.ts`. -/
def parseArticleResponse (text : String) : ArticleGenerationResult :=
  let t := text.data
  let htmlRaw := extractHtmlRaw t
  let title : String := ⟨titleOf t htmlRaw⟩
  let html : String := ⟨unescapeHtmlL htmlRaw⟩
  let suggestedTags := tagsOf t
  let metaDescription : String := ⟨metaOf t⟩
  let excerpt : String := ⟨excerptOf t⟩
  let metaTitle := if title ≠ "" then title ++ " | Style Me Pretty" else ""
  ⟨⟨title, "", html, excerpt, suggestedTags, metaTitle, metaDescription, "draft"⟩,
   suggestedTags, metaTitle, metaDescription, excerpt⟩

/-! ### Agent (`src/strands-agent/agent.ts`)

The language model and the external collaborators (Google Docs, Ghost,
Tavily) are abstract parameters; a collaborator that throws is modelled
by `Except.error` carrying the error message.  `JSON.stringify(x, null, 2)`
is embedded per result shape; object fields whose value is `undefined`
are omitted, exactly as in JavaScript. -/

/-- JSON string escaping (quote, backslash, newline). -/
def escJson : List Char → List Char
  | [] => []
  | c :: cs =>
    (if c = '"' then ['\\', '"']
     else if c = '\\' then ['\\', '\\']
     else if c = '\n' then ['\\', 'n']
     else [c]) ++ escJson cs

/-- A JSON string literal. -/
def jsonStr (s : String) : String := "\"" ++ (⟨escJson s.data⟩ : String) ++ "\""

/-- An object field rendered as `"key": value`. -/
def jsonField (k v : String) : String := "\"" ++ k ++ "\": " ++ v

/-- Optional string field: omitted when the value is `undefined` (`none`). -/
def jsonOptField (k : String) (v : Option String) : List String :=
  match v with
  | some s => [jsonField k (jsonStr s)]
  | none => []

/-- Nullable string field: `null` when the value is `null` (`none`). -/
def jsonNullField (k : String) (v : Option String) : String :=
  match v with
  | some s => jsonField k (jsonStr s)
  | none => jsonField k "null"

/-- Model of `JSON.stringify(obj, null, 2)` for a flat object whose field lines are
    given, laid out at the stated indentation of the opening brace. -/
def objPretty (indent : String) (fields : List String) : String :=
  if fields.isEmpty then "\x7b\x7d"
  else
    "\x7b\n" ++ String.intercalate ",\n" (fields.map (fun f => indent ++ "  " ++ f)) ++
      "\n" ++ indent ++ "\x7d"

/-- Model of `JSON.stringify(arr, null, 2)` for an array of objects, each object
    given as its rendered field lines. -/
def arrPretty (objs : List (List String)) : String :=
  if objs.isEmpty then "[]"
  else
    "[\n" ++ String.intercalate ",\n" (objs.map (fun fs => "  " ++ objPretty "  " fs)) ++
      "\n]"

/-- Model of `JSON.stringify(arr, null, 2)` for an array of strings nested one level
    deep inside an object (used by `check_duplicate`). -/
def strArrPrettyNested (items : List String) : String :=
  if items.isEmpty then "[]"
  else
    "[\n" ++ String.intercalate ",\n" (items.map (fun s => "    " ++ jsonStr s)) ++
      "\n  ]"

/-- Compact `JSON.stringify({ error: msg })` (no whitespace). -/
def compactErrorJson (msg : String) : String :=
  "\x7b\"error\":" ++ jsonStr msg ++ "\x7d"

/-- An interview listed from Google Drive (`createdAt` already formatted by
    `toLocaleDateString`; `none` models an `undefined` field). -/
structure InterviewMeta where
  id : String
  title : String
  vendorName : Option String
  vendorType : Option String
  createdAtStr : Option String
deriving DecidableEq

/-- A fully loaded interview document. -/
structure InterviewDoc where
  id : String
  title : String
  vendorName : Option String
  vendorType : Option String
  content : String
deriving DecidableEq

/-- An idea document listed from the ideas folder. -/
structure IdeaMeta where
  id : String
  title : String
  createdAtStr : Option String
deriving DecidableEq

/-- A fully loaded idea document. -/
structure IdeaDoc where
  id : String
  title : String
  content : String
deriving DecidableEq

/-- One web-search result. -/
structure SearchResultB where
  title : String
  url : String
  snippet : String
  source : String
deriving DecidableEq

/-- The `{ id, url }` record returned by Ghost on draft creation. -/
structure CreateResult where
  id : String
  url : String
deriving DecidableEq

/-- The `Article` record handed to `createDraftArticle`.  `html` is an
    `Option` because the agent path forwards `input.html` unchecked and it
    may be `undefined` at run time. -/
structure ArticleB where
  title : String
  slug : String
  html : Option String
  excerpt : Option String
  metaTitle : Option String
  metaDescription : Option String
  featureImage : Option String
  tags : Option (List String)
  status : String
deriving DecidableEq

/-- Truthiness helper: `undefined` and empty strings are falsy, so the `if (article.x)` guards of
    `createDraftArticle` drop them. -/
def truthyOpt : Option String → Option String
  | some s => if s = "" then none else some s
  | none => none

/-- The `postData` payload built by `createDraftArticle` in
    `src/services/ghost.ts` (tags reduced to their `name` strings). -/
structure PostDataB where
  title : String
  slug : String
  html : Option String
  status : String
  custom_excerpt : Option String
  meta_title : Option String
  meta_description : Option String
  feature_image : Option String
  tagNames : Option (List String)
deriving DecidableEq

/-- The payload-construction half of `createDraftArticle`: field-by-field
    copy with `status: 'draft'` hard-coded and falsy optional fields
    omitted. -/
def mkPostData (article : ArticleB) : PostDataB :=
  ⟨article.title,
   if article.slug ≠ "" then article.slug else generateSlug article.title,
   article.html,
   "draft",
   truthyOpt article.excerpt,
   truthyOpt article.metaTitle,
   truthyOpt article.metaDescription,
   truthyOpt article.featureImage,
   match article.tags with
   | some ts => if ts.length > 0 then some ts else none
   | none => none⟩

/-- A JSON-ish tool-input value (string, number, string array, boolean). -/
inductive JVal where
  | s (v : String)
  | n (v : Int)
  | arr (vs : List String)
  | b (v : Bool)
deriving DecidableEq

/-- The `input` record of a tool call: field name to value.  A missing
    field models JavaScript `undefined`. -/
abbrev ToolInput := List (String × JVal)

/-- Model of `input.k as string` (absent or non-string gives `undefined`). -/
def getStr (input : ToolInput) (k : String) : Option String :=
  match input.lookup k with
  | some (JVal.s v) => some v
  | _ => none

/-- Model of `input.k as number`. -/
def getNum (input : ToolInput) (k : String) : Option Int :=
  match input.lookup k with
  | some (JVal.n v) => some v
  | _ => none

/-- Model of `input.k as string[]`. -/
def getArr (input : ToolInput) (k : String) : Option (List String) :=
  match input.lookup k with
  | some (JVal.arr vs) => some vs
  | _ => none

/-- Model of `x || d` for a JS number: `undefined` and `0` fall back to `d`. -/
def jsOrNum (o : Option Int) (d : Int) : Int :=
  match o with
  | some v => if v = 0 then d else v
  | none => d

/-- Model of `a || b` for JS strings: `undefined` and `''` fall back to `b`. -/
def jsOrOptStr (a b : Option String) : Option String :=
  match a with
  | some v => if v = "" then b else some v
  | none => b

/-- Model of `xs.slice(0, n)` (negative `n` counts from the end). -/
def jsSliceTo (n : Int) (xs : List α) : List α :=
  if n < 0 then xs.take (xs.length - n.natAbs) else xs.take n.toNat

/-- The collaborator interface consumed by the agent (function fields throw
    by returning `Except.error msg`). -/
structure AgentEnv where
  listInterviews : String → Except String (List InterviewMeta)
  getInterview : Option String → Except String InterviewDoc
  getExistingArticles : Except String (List ExistingArticle)
  searchExistingArticles : Option String → Except String (List ExistingArticle)
  checkArticleExists : Option String → Except String DuplicateCheckResult
  createDraftArticle : ArticleB → Except String CreateResult
  searchWeb : Option String → Int → Except String (List SearchResultB)
  researchTopic : Option String → Except String String
  listArticleIdeas : String → Except String (List IdeaMeta)
  getIdea : Option String → Except String IdeaDoc
  envIdeasFolderId : Option String

/-- Serialization of the `list_interviews` result. -/
def stringifyInterviewList (xs : List InterviewMeta) : String :=
  arrPretty (xs.map fun i =>
    [jsonField "id" (jsonStr i.id), jsonField "title" (jsonStr i.title)] ++
    jsonOptField "vendorName" i.vendorName ++
    jsonOptField "vendorType" i.vendorType ++
    jsonOptField "createdAt" i.createdAtStr)

/-- Serialization of the `read_interview` result. -/
def stringifyInterviewDoc (i : InterviewDoc) : String :=
  objPretty ""
    ([jsonField "id" (jsonStr i.id), jsonField "title" (jsonStr i.title)] ++
     jsonOptField "vendorName" i.vendorName ++
     jsonOptField "vendorType" i.vendorType ++
     [jsonField "content" (jsonStr i.content)])

/-- Serialization of the `list_articles` / `search_articles` results
    (`publishedAt` is `null` when Ghost reports no publish date). -/
def stringifyArticleList (xs : List ExistingArticle) : String :=
  arrPretty (xs.map fun a =>
    [jsonField "title" (jsonStr a.title), jsonField "slug" (jsonStr a.slug),
     jsonNullField "publishedAt" a.publishedAt])

/-- Serialization of the `check_duplicate` result. -/
def stringifyDupCheck (exactMatch : Bool) (titles : List String) : String :=
  objPretty ""
    [jsonField "exactMatch" (if exactMatch then "true" else "false"),
     jsonField "similarArticles" (strArrPrettyNested titles)]

/-- Serialization of the `create_draft` result. -/
def stringifyCreateDraft (r : CreateResult) (title : String) : String :=
  objPretty ""
    [jsonField "success" "true",
     jsonField "id" (jsonStr r.id),
     jsonField "url" (jsonStr r.url),
     jsonField "message" (jsonStr ("Draft created: \"" ++ title ++ "\""))]

/-- Serialization of the `web_search` results. -/
def stringifySearchResults (xs : List SearchResultB) : String :=
  arrPretty (xs.map fun r =>
    [jsonField "title" (jsonStr r.title), jsonField "url" (jsonStr r.url),
     jsonField "snippet" (jsonStr r.snippet), jsonField "source" (jsonStr r.source)])

/-- Serialization of the `list_ideas` result. -/
def stringifyIdeaList (xs : List IdeaMeta) : String :=
  arrPretty (xs.map fun i =>
    [jsonField "id" (jsonStr i.id), jsonField "title" (jsonStr i.title)] ++
    jsonOptField "createdAt" i.createdAtStr)

/-- Serialization of the `read_idea` result. -/
def stringifyIdeaDoc (i : IdeaDoc) : String :=
  objPretty ""
    [jsonField "id" (jsonStr i.id), jsonField "title" (jsonStr i.title),
     jsonField "content" (jsonStr i.content)]

/-- The `Article` value assembled by the `create_draft` arm of
    `executeTool`: slug and meta title derived from the title, remaining
    fields forwarded from the tool input, `status: 'draft'` hard-coded. -/
def agentDraftPayload (title : String) (input : ToolInput) : ArticleB :=
  ⟨title, generateSlug title, getStr input "html", getStr input "excerpt",
   some (generateMetaTitle title), getStr input "metaDescription", none,
   getArr input "tags", "draft"⟩

/-- The names registered in the tool catalog of `agent.ts`. -/
def isKnownToolName (name : String) : Bool :=
  name = "list_interviews" || name = "read_interview" || name = "list_articles" ||
  name = "search_articles" || name = "check_duplicate" || name = "create_draft" ||
  name = "web_search" || name = "research_topic" || name = "list_ideas" ||
  name = "read_idea"

/-- Model of `executeTool` from `agent.ts`: dispatch on the tool name, forward the
    (unvalidated) input fields to the collaborator, serialize the result.
    The `default` arm returns a *successful* JSON error message.  A
    `create_draft` call without `title` throws inside the handler
    (`generateSlug(undefined)`), modelled as an error. -/
def executeTool (env : AgentEnv) (name : String) (input : ToolInput)
    (folderId : String) (ideasFolderId : Option String) : Except String String :=
  match name with
  | "list_interviews" => do
    let interviews ← env.listInterviews folderId
    return stringifyInterviewList interviews
  | "read_interview" => do
    let interview ← env.getInterview (getStr input "documentId")
    return stringifyInterviewDoc interview
  | "list_articles" => do
    let articles ← env.getExistingArticles
    let limit := jsOrNum (getNum input "limit") 20
    return stringifyArticleList (jsSliceTo limit articles)
  | "search_articles" => do
    let articles ← env.searchExistingArticles (getStr input "query")
    return stringifyArticleList articles
  | "check_duplicate" => do
    let check ← env.checkArticleExists (getStr input "title")
    return stringifyDupCheck check.exactMatch
      ((check.similarArticles.take 5).map (·.title))
  | "create_draft" =>
    (match getStr input "title" with
     | none => Except.error "Cannot read properties of undefined (reading toLowerCase)"
     | some title => do
       let result ← env.createDraftArticle (agentDraftPayload title input)
       return stringifyCreateDraft result title)
  | "web_search" => do
    let results ← env.searchWeb (getStr input "query")
      (jsOrNum (getNum input "maxResults") 5)
    return stringifySearchResults results
  | "research_topic" => do
    let research ← env.researchTopic (getStr input "topic")
    return research
  | "list_ideas" =>
    (match jsOrOptStr ideasFolderId env.envIdeasFolderId with
     | none => Except.ok (compactErrorJson "Ideas folder not configured")
     | some eff =>
       if eff = "" then Except.ok (compactErrorJson "Ideas folder not configured")
       else do
         let ideas ← env.listArticleIdeas eff
         return stringifyIdeaList ideas)
  | "read_idea" => do
    let idea ← env.getIdea (getStr input "documentId")
    return stringifyIdeaDoc idea
  | _ => Except.ok (compactErrorJson ("Unknown tool: " ++ name))

/-- A content block of a model response
    (`text` or `tool_use` in the Anthropic API). -/
inductive ContentBlock where
  | text (t : String)
  | toolUse (id name : String) (input : ToolInput)
deriving DecidableEq

/-- A `tool_result` block pushed back to the model.  In the source the
    success branch leaves `is_error` unset (`undefined`, falsy), modelled
    as `false`. -/
structure ToolResultB where
  tool_use_id : String
  content : String
  is_error : Bool
deriving DecidableEq

/-- A model response: stop reason plus content blocks. -/
structure ModelResponse where
  stop_reason : String
  content : List ContentBlock
deriving DecidableEq

/-- Conversation message content: the initial plain-text request, an
    assistant turn of content blocks, or a user turn of tool results. -/
inductive MsgContent where
  | text (s : String)
  | blocks (bs : List ContentBlock)
  | results (rs : List ToolResultB)
deriving DecidableEq

/-- One conversation turn. -/
structure Message where
  role : String
  content : MsgContent
deriving DecidableEq

/-- The language model: `client.messages.create` as a function of the
    conversation (system prompt and tool catalog are fixed per run). -/
abbrev LanguageModel := List Message → ModelResponse

/-- The try/catch around one tool call in the loop body: a thrown error
    becomes an error-flagged result with message `Error: ...`. -/
def mkToolResult (id : String) (r : Except String String) : ToolResultB :=
  match r with
  | Except.ok s => ⟨id, s, false⟩
  | Except.error e => ⟨id, "Error: " ++ e, true⟩

/-- The `for (const block of assistantContent)` loop: one result per
    `tool_use` block, in block order; text blocks contribute nothing. -/
def buildToolResults (env : AgentEnv) (folderId : String)
    (ideasFolderId : Option String) (blocks : List ContentBlock) :
    List ToolResultB :=
  blocks.filterMap fun b =>
    match b with
    | ContentBlock.text _ => none
    | ContentBlock.toolUse id name input =>
      some (mkToolResult id (executeTool env name input folderId ideasFolderId))

/-- The iteration ceiling of the agentic loop. -/
def maxIterations : Nat := 15

/-- The `while (response.stop_reason === 'tool_use' && iterations < maxIterations)`
    loop, fuelled by the remaining iteration budget.  Returns the final
    response, the final conversation, and the number of model calls made
    inside the loop (one per executed iteration). -/
def agentLoopAux (env : AgentEnv) (model : LanguageModel) (folderId : String)
    (ideasFolderId : Option String) :
    Nat → List Message → ModelResponse → ModelResponse × List Message × Nat
  | 0, msgs, resp => (resp, msgs, 0)
  | fuel + 1, msgs, resp =>
    if resp.stop_reason = "tool_use" then
      let msgs1 := msgs ++ [⟨"assistant", MsgContent.blocks resp.content⟩]
      let results := buildToolResults env folderId ideasFolderId resp.content
      let msgs2 := msgs1 ++ [⟨"user", MsgContent.results results⟩]
      let resp2 := model msgs2
      let out := agentLoopAux env model folderId ideasFolderId fuel msgs2 resp2
      (out.1, out.2.1, out.2.2 + 1)
    else (resp, msgs, 0)

/-- Model of `textBlocks.map(b => b.text).join('\n')` over the final response. -/
def joinFinalText (resp : ModelResponse) : String :=
  String.intercalate "\n"
    (resp.content.filterMap fun b =>
      match b with
      | ContentBlock.text t => some t
      | _ => none)

/-- The iteration-limit annotation appended by `runContentAgent`. -/
def limitNote : String := "\n\n(Note: Agent reached iteration limit)"

/-- Instrumented outcome of a run: returned text, total number of model
    calls, number of loop iterations executed, and the final response. -/
structure RunOutcome where
  text : String
  modelCalls : Nat
  iterations : Nat
  finalResponse : ModelResponse
deriving DecidableEq

/-- Model of `runContentAgent` from `agent.ts`, instrumented with call counts. -/
def runContentAgentR (env : AgentEnv) (model : LanguageModel)
    (request : String) (folderId : String) (ideasFolderId : Option String) :
    RunOutcome :=
  let messages : List Message := [⟨"user", MsgContent.text request⟩]
  let response := model messages
  let out := agentLoopAux env model folderId ideasFolderId maxIterations
    messages response
  let iterations := out.2.2
  let finalResponse := out.1
  let finalText := joinFinalText finalResponse
  let text := if iterations ≥ maxIterations then finalText ++ limitNote
    else finalText
  ⟨text, iterations + 1, iterations, finalResponse⟩

/-- Model of `runContentAgent`: the returned text alone. -/
def runContentAgent (env : AgentEnv) (model : LanguageModel)
    (request : String) (folderId : String) (ideasFolderId : Option String) :
    String :=
  (runContentAgentR env model request folderId ideasFolderId).text

/-! ### Concrete fixtures used by the theorems below -/

/-- An existing article with no relation to the candidates under test. -/
def diffArticle : ExistingArticle :=
  ⟨"a2", "Completely Different Title", "completely-different-title", none⟩

/-- An existing article whose slug coincides with the candidate slug. -/
def sarahArticle : ExistingArticle :=
  ⟨"a1", "A Different Name", "sarah-chen-floral-journey", none⟩

/-- An existing article sharing no key phrase with the test topic but with
    full long-word overlap. -/
def c6Article : ExistingArticle :=
  ⟨"a3", "Gorgeous Mountain Elopement Checklist Ideas",
   "gorgeous-mountain-elopement-checklist-ideas", none⟩

/-- An existing article sharing two key phrases with the witness topic. -/
def c6wArticle : ExistingArticle :=
  ⟨"a4", "Instagram Pricing Guide", "instagram-pricing-guide", none⟩

/-- A fully loaded interview document returned by the benign environment. -/
def docX : InterviewDoc :=
  ⟨"doc1", "Interview X", some "Vendor X", some "Planner",
   "Full interview text"⟩

/-- A benign collaborator environment: every call succeeds. -/
def envOkEmpty : AgentEnv :=
  ⟨fun _ => Except.ok [], fun _ => Except.ok docX, Except.ok [],
   fun _ => Except.ok [], fun _ => Except.ok ⟨false, []⟩,
   fun _ => Except.ok ⟨"pid", "purl"⟩, fun _ _ => Except.ok [],
   fun _ => Except.ok "research notes", fun _ => Except.ok [],
   fun _ => Except.ok ⟨"idea1", "Idea", "Idea content"⟩, none⟩

/-- A hostile collaborator environment: every call throws. -/
def envThrow : AgentEnv :=
  ⟨fun _ => Except.error "boom", fun _ => Except.error "invalid document id",
   Except.error "down", fun _ => Except.error "down",
   fun _ => Except.error "down", fun _ => Except.error "down",
   fun _ _ => Except.error "down", fun _ => Except.error "down",
   fun _ => Except.error "down", fun _ => Except.error "down", none⟩

/-- A model that requests one tool call per turn until the conversation has
    grown past the iteration ceiling, then stops naturally. -/
def modelCeiling : LanguageModel := fun msgs =>
  if msgs.length ≥ 31 then ⟨"end_turn", [ContentBlock.text "done"]⟩
  else ⟨"tool_use", [ContentBlock.toolUse "t1" "list_interviews" []]⟩

/-- A model that stops naturally on the first call. -/
def modelOneShot : LanguageModel := fun _ =>
  ⟨"end_turn", [ContentBlock.text "hi"]⟩

/-- An assistant turn mixing text and two tool calls (one unknown). -/
def cxBlocks : List ContentBlock :=
  [ContentBlock.text "thinking",
   ContentBlock.toolUse "t1" "list_interviews" [],
   ContentBlock.toolUse "t2" "bogus" []]

/-- A tool-use response carrying `cxBlocks`. -/
def respToolUse : ModelResponse := ⟨"tool_use", cxBlocks⟩

/-- Parser input with a bold phrase and an `<h2>` but no label title and
    no `<h1>`: the fallback order decides the title. -/
def c9Text : String :=
  "**An Absolutely Wonderful Day**\n```html\n<h2>The Other Heading</h2>\n<p>body</p>\n```"

/-- A second input of the same shape, for the fallback-order witness. -/
def c9wText : String :=
  "**Something Rather Special**\n```html\n<h2>Alt Heading Here</h2>\n```"

/-- Parser input matching none of the extraction patterns. -/
def c7wText : String := "plain words only here"

/-! ### Theorems -/

/-- C5: `checkArticleExists` reports an exact match iff some existing
    article has the candidate's normalized slug or its lower-cased title;
    the two spec examples evaluate as stated (slug identity matches, an
    unrelated corpus gives no exact match and no similar articles). -/
theorem checkArticleExists_exactMatch_spec :
    (∀ (title : String) (articles : List ExistingArticle),
      (checkArticleExists title articles).exactMatch = true ↔
        ∃ a ∈ articles, a.slug = generateSlug title ∨
          jsToLower a.title = jsToLower title)
    ∧ (checkArticleExists "Sarah Chen Floral Journey" [sarahArticle]).exactMatch = true
    ∧ checkArticleExists "New Topic" [diffArticle] = ⟨false, []⟩ := by
  refine ⟨?_, by decide, by decide⟩
  intro title articles
  simp [checkArticleExists, List.any_eq_true]

/-- Witness for C5: the slug-identity example, via the characterization. -/
theorem checkArticleExists_exactMatch_spec_witness :
    (checkArticleExists "Sarah Chen Floral Journey" [sarahArticle]).exactMatch = true :=
  (checkArticleExists_exactMatch_spec.1 "Sarah Chen Floral Journey" [sarahArticle]).mpr
    ⟨sarahArticle, by decide, Or.inl (by decide)⟩

/-- C4: the generators' duplicate gate tests the truthiness of the
    `DuplicateCheckResult` object instead of its `exactMatch` field, so all
    three generators block even a candidate with no exact match and an
    empty similar list. -/
theorem generatorGate_blocks_nonduplicate :
    generateFromInsightBlocked "New Topic" [diffArticle] = true ∧
    generateSEOContentBlocked "New Topic" [diffArticle] = true ∧
    generateThemeRoundupBlocked "New Topic" [diffArticle] = true ∧
    (checkArticleExists "New Topic" [diffArticle]).exactMatch = false ∧
    (checkArticleExists "New Topic" [diffArticle]).similarArticles = [] := by
  decide

/-- C10: every payload reaching the CMS carries `status = "draft"`: the
    `postData` of `createDraftArticle` hard-codes it, and the agent's
    `create_draft` payload does too, regardless of the input article. -/
theorem draftStatus_always_draft :
    ∀ (article : ArticleB) (title : String) (input : ToolInput),
      (mkPostData article).status = "draft" ∧
      (agentDraftPayload title input).status = "draft" ∧
      (mkPostData (agentDraftPayload title input)).status = "draft" :=
  fun _ _ _ => ⟨rfl, rfl, rfl⟩

/-- C6 (amended): the scheduler flags a topic as covered iff some existing
    title matches at least 2 key phrases or has long-word overlap above
    0.6; a candidate with at most 1 matching key phrase against every
    title is unflagged only when no title exceeds the word-overlap bound
    either. -/
theorem isTopicAlreadyCovered_characterization :
    ∀ (topic : String) (articles : List ExistingArticle),
      (isTopicAlreadyCovered topic articles = true ↔
        ∃ a ∈ articles,
          matchingPhraseCount (jsToLower topic) (jsToLower a.title) ≥ 2 ∨
            wordOverlapExceeds (jsToLower topic) (jsToLower a.title) = true)
      ∧ ((∀ a ∈ articles,
            matchingPhraseCount (jsToLower topic) (jsToLower a.title) ≤ 1 ∧
              wordOverlapExceeds (jsToLower topic) (jsToLower a.title) = false) →
          isTopicAlreadyCovered topic articles = false) := by
  intro topic articles
  have hiff : isTopicAlreadyCovered topic articles = true ↔
      ∃ a ∈ articles,
        matchingPhraseCount (jsToLower topic) (jsToLower a.title) ≥ 2 ∨
          wordOverlapExceeds (jsToLower topic) (jsToLower a.title) = true := by
    simp [isTopicAlreadyCovered, coveredByArticle, List.any_eq_true]
  refine ⟨hiff, fun h => ?_⟩
  cases hcv : isTopicAlreadyCovered topic articles with
  | false => rfl
  | true =>
    obtain ⟨a, ha, hor⟩ := hiff.mp hcv
    rcases hor with h2 | hw
    · have := (h a ha).1
      omega
    · rw [(h a ha).2] at hw
      exact absurd hw (by decide)

/-- Counterexample for C6: a candidate sharing zero key phrases with the
    only existing title is still flagged, through the word-overlap test. -/
theorem isTopicAlreadyCovered_flags_zero_shared_phrases :
    isTopicAlreadyCovered "gorgeous mountain elopement checklist" [c6Article] = true ∧
    matchingPhraseCount (jsToLower "gorgeous mountain elopement checklist")
      (jsToLower c6Article.title) = 0 := by
  decide

/-- Witness for C6: a topic sharing two key phrases with an existing
    title is flagged. -/
theorem isTopicAlreadyCovered_characterization_witness :
    isTopicAlreadyCovered "instagram pricing tips" [c6wArticle] = true :=
  ((isTopicAlreadyCovered_characterization "instagram pricing tips" [c6wArticle]).1).mpr
    ⟨c6wArticle, by decide, Or.inl (by decide)⟩

/-- C7: when none of the extraction patterns matches, the parser still
    returns a complete `ArticleDraft` with every string field empty, the
    tag list empty, and `status = "draft"`. -/
theorem parseArticleResponse_total_empty_defaults :
    ∀ text : String,
      fencedHtmlGroup text.data = none →
      directHtmlMatch text.data = none →
      titleLabelMatches text.data = [none, none, none, none] →
      strongMatchM text.data = none →
      tagsMatchM text.data = none →
      meta1MatchM text.data = none →
      meta2MatchM text.data = none →
      exc1MatchM text.data = none →
      exc2MatchM text.data = none →
      exc3MatchM text.data = none →
      parseArticleResponse text =
        ⟨⟨"", "", "", "", [], "", "", "draft"⟩, [], "", "", ""⟩ := by
  intro text hf hd hlab hstrong htags hm1 hm2 he1 he2 he3
  have hhtml : extractHtmlRaw text.data = [] := by
    simp only [extractHtmlRaw, hf, hd]
  have hlabel : labelTitle text.data = [] := by
    simp only [labelTitle, hlab, firstUsableTitle]
  have hstrongT : strongTitle text.data = [] := by
    simp only [strongTitle, hstrong]
  have htitleOf : titleOf text.data [] = [] := by
    simp only [titleOf, hlabel, hstrongT]
    rfl
  have htagsOf : tagsOf text.data = [] := by
    simp only [tagsOf, htags]
  have hmetaOf : metaOf text.data = [] := by
    simp only [metaOf, hm1, hm2, firstMatchOf]
  have hexcOf : excerptOf text.data = [] := by
    simp only [excerptOf, he1, he2, he3, firstMatchOf]
  simp only [parseArticleResponse, hhtml, htitleOf, htagsOf, hmetaOf, hexcOf]
  rfl

/-- Witness for C7: a plain text with no markers parses to the all-empty
    draft. -/
theorem parseArticleResponse_total_empty_defaults_witness :
    parseArticleResponse c7wText =
      ⟨⟨"", "", "", "", [], "", "", "draft"⟩, [], "", "", ""⟩ :=
  parseArticleResponse_total_empty_defaults c7wText (by decide) (by decide)
    (by decide) (by decide) (by decide) (by decide) (by decide) (by decide)
    (by decide) (by decide)

/-- Counterexample for C9: with no label title and no `<h1>`, the parser
    takes the bold short phrase even though an `<h2>` is present — the
    `<h2>` fallback runs after the bold-phrase fallback, not before. -/
theorem titleFallback_bold_preempts_h2 :
    (parseArticleResponse c9Text).article.title = "An Absolutely Wonderful Day" ∧
    labelTitle c9Text.data = [] ∧
    h1Title (extractHtmlRaw c9Text.data) = [] ∧
    h2Title (extractHtmlRaw c9Text.data) = "The Other Heading".data ∧
    "An Absolutely Wonderful Day" ≠ "The Other Heading" := by
  refine ⟨by decide, by decide, by decide, by decide, by decide⟩

/-- C9 (amended): after the label patterns and the `<h1>` fallback fail,
    the bold-phrase fallback is attempted next and, when it matches, wins
    without consulting the `<h2>` fallback; the `<h2>` fallback is used
    only when the bold phrase also fails. -/
theorem titleFallback_order_h1_bold_h2 :
    ∀ text html : List Char,
      labelTitle text = [] →
      h1Title html = [] →
      ((strongTitle text ≠ [] →
          titleOf text html = finalCleanTitle (strongTitle text)) ∧
       (strongTitle text = [] →
          titleOf text html = finalCleanTitle (h2Title html))) := by
  intro text html hlab hh1
  constructor
  · intro hs
    simp [titleOf, hlab, hh1, hs]
  · intro hs
    simp [titleOf, hlab, hh1, hs]

/-- Witness for C9 (amended): on a concrete input with a bold phrase and
    an `<h2>`, the title is the cleaned bold phrase. -/
theorem titleFallback_order_h1_bold_h2_witness :
    titleOf c9wText.data (extractHtmlRaw c9wText.data) =
      finalCleanTitle (strongTitle c9wText.data) :=
  ((titleFallback_order_h1_bold_h2 c9wText.data (extractHtmlRaw c9wText.data)
      (by decide) (by decide)).1 (by decide))

/-- The request id of a tool result is the id of its request, whichever
    way the execution went. -/
theorem mkToolResult_id (id : String) (r : Except String String) :
    (mkToolResult id r).tool_use_id = id := by
  cases r <;> rfl

/-- The loop makes at most `fuel` model calls. -/
theorem agentLoopAux_calls_le (env : AgentEnv) (model : LanguageModel)
    (folderId : String) (ideasFolderId : Option String) :
    ∀ (fuel : Nat) (msgs : List Message) (resp : ModelResponse),
      (agentLoopAux env model folderId ideasFolderId fuel msgs resp).2.2 ≤ fuel := by
  intro fuel
  induction fuel with
  | zero => intro msgs resp; exact Nat.le_refl 0
  | succ n ih =>
    intro msgs resp
    simp only [agentLoopAux]
    by_cases h : resp.stop_reason = "tool_use"
    · rw [if_pos h]
      exact Nat.succ_le_succ (ih _ _)
    · rw [if_neg h]
      exact Nat.zero_le _

/-- When the loop stops before exhausting its fuel, the final response is
    not a tool-use response. -/
theorem agentLoopAux_natural_stop (env : AgentEnv) (model : LanguageModel)
    (folderId : String) (ideasFolderId : Option String) :
    ∀ (fuel : Nat) (msgs : List Message) (resp : ModelResponse),
      (agentLoopAux env model folderId ideasFolderId fuel msgs resp).2.2 < fuel →
      (agentLoopAux env model folderId ideasFolderId fuel msgs resp).1.stop_reason ≠
        "tool_use" := by
  intro fuel
  induction fuel with
  | zero => intro msgs resp h; exact absurd h (Nat.not_lt_zero _)
  | succ n ih =>
    intro msgs resp h
    by_cases hs : resp.stop_reason = "tool_use"
    · simp only [agentLoopAux, if_pos hs] at h ⊢
      exact ih _ _ (Nat.lt_of_succ_lt_succ h)
    · simp only [agentLoopAux, if_neg hs]
      exact hs

/-- C1: within one turn, every `tool_use` block receives exactly one tool
    result, carrying its request id, in block order; and a tool-use turn
    appends the assistant turn plus one single user turn holding all
    results to the conversation before the next model call is made. -/
theorem toolResults_complete_ordered_single_turn :
    (∀ (env : AgentEnv) (folderId : String) (ideasFolderId : Option String)
        (blocks : List ContentBlock),
      (buildToolResults env folderId ideasFolderId blocks).map (·.tool_use_id) =
        blocks.filterMap (fun b =>
          match b with
          | ContentBlock.toolUse id _ _ => some id
          | _ => none))
    ∧ (∀ (env : AgentEnv) (model : LanguageModel) (folderId : String)
        (ideasFolderId : Option String) (fuel : Nat) (msgs : List Message)
        (resp : ModelResponse),
        resp.stop_reason = "tool_use" →
        agentLoopAux env model folderId ideasFolderId (fuel + 1) msgs resp =
          (let msgs2 := msgs ++ [⟨"assistant", MsgContent.blocks resp.content⟩] ++
              [⟨"user", MsgContent.results
                  (buildToolResults env folderId ideasFolderId resp.content)⟩]
           let out := agentLoopAux env model folderId ideasFolderId fuel msgs2
             (model msgs2)
           (out.1, out.2.1, out.2.2 + 1))) := by
  constructor
  · intro env folderId ideasFolderId blocks
    induction blocks with
    | nil => rfl
    | cons b bs ih =>
      cases b with
      | text t => simpa [buildToolResults] using ih
      | toolUse id name input =>
        simp only [buildToolResults, List.filterMap_cons] at ih ⊢
        simpa [mkToolResult_id] using ih
  · intro env model folderId ideasFolderId fuel msgs resp h
    simp only [agentLoopAux, if_pos h]

/-- Witness for C1: the loop equation at a concrete tool-use response with
    two tool calls, and the id bookkeeping on its blocks. -/
theorem toolResults_complete_ordered_single_turn_witness :
    ((buildToolResults envOkEmpty "f" none cxBlocks).map (·.tool_use_id) =
      cxBlocks.filterMap (fun b =>
        match b with
        | ContentBlock.toolUse id _ _ => some id
        | _ => none))
    ∧ agentLoopAux envOkEmpty modelOneShot "f" none (0 + 1) [] respToolUse =
        (let msgs2 := [] ++ [⟨"assistant", MsgContent.blocks respToolUse.content⟩] ++
            [⟨"user", MsgContent.results
                (buildToolResults envOkEmpty "f" none respToolUse.content)⟩]
         let out := agentLoopAux envOkEmpty modelOneShot "f" none 0 msgs2
           (modelOneShot msgs2)
         (out.1, out.2.1, out.2.2 + 1)) :=
  ⟨toolResults_complete_ordered_single_turn.1 envOkEmpty "f" none cxBlocks,
   toolResults_complete_ordered_single_turn.2 envOkEmpty modelOneShot "f" none 0 []
     respToolUse rfl⟩

/-- C2 (amended): a run makes at most `maxIterations + 1` model calls
    (exactly one more than the executed loop iterations); when the loop
    stops below the ceiling the stop is natural and the text is returned
    unannotated, and when the ceiling is reached the limit note is
    appended — even though the final response may itself be a natural
    stop. -/
theorem runContentAgent_iteration_budget :
    ∀ (env : AgentEnv) (model : LanguageModel) (request folderId : String)
      (ideasFolderId : Option String),
      (runContentAgentR env model request folderId ideasFolderId).modelCalls ≤
        maxIterations + 1 ∧
      (runContentAgentR env model request folderId ideasFolderId).modelCalls =
        (runContentAgentR env model request folderId ideasFolderId).iterations + 1 ∧
      ((runContentAgentR env model request folderId ideasFolderId).iterations <
          maxIterations →
        (runContentAgentR env model request folderId
            ideasFolderId).finalResponse.stop_reason ≠ "tool_use" ∧
        (runContentAgentR env model request folderId ideasFolderId).text =
          joinFinalText
            (runContentAgentR env model request folderId ideasFolderId).finalResponse) ∧
      ((runContentAgentR env model request folderId ideasFolderId).iterations ≥
          maxIterations →
        (runContentAgentR env model request folderId ideasFolderId).text =
          joinFinalText
            (runContentAgentR env model request folderId ideasFolderId).finalResponse ++
            limitNote) := by
  intro env model request folderId ideasFolderId
  refine ⟨?_, rfl, ?_, ?_⟩
  · simp only [runContentAgentR]
    exact Nat.add_le_add_right (agentLoopAux_calls_le env model folderId
      ideasFolderId maxIterations _ _) 1
  · intro h
    simp only [runContentAgentR] at h ⊢
    refine ⟨agentLoopAux_natural_stop env model folderId ideasFolderId
      maxIterations _ _ h, ?_⟩
    rw [if_neg (Nat.not_le.mpr h)]
  · intro h
    simp only [runContentAgentR] at h ⊢
    rw [if_pos h]

/-- Witness for C2: a model that stops naturally on the first call stays
    within the budget and gets its text back unannotated. -/
theorem runContentAgent_iteration_budget_witness :
    (runContentAgentR envOkEmpty modelOneShot "hi" "f" none).modelCalls ≤
      maxIterations + 1 ∧
    (runContentAgentR envOkEmpty modelOneShot "hi" "f" none).finalResponse.stop_reason ≠
      "tool_use" ∧
    (runContentAgentR envOkEmpty modelOneShot "hi" "f" none).text =
      joinFinalText
        (runContentAgentR envOkEmpty modelOneShot "hi" "f" none).finalResponse := by
  have h := runContentAgent_iteration_budget envOkEmpty modelOneShot "hi" "f" none
  exact ⟨h.1, (h.2.2.1 (by decide)).1, (h.2.2.1 (by decide)).2⟩

/-- Counterexample for C2: after fifteen tool-use rounds the model stops
    naturally, yet the returned text still ends with the iteration-limit
    note — the note is tied to the iteration count, not to the stop
    reason. -/
theorem iterationNote_on_natural_stop :
    (runContentAgentR envOkEmpty modelCeiling "go" "folder" none).finalResponse.stop_reason
      = "end_turn" ∧
    (runContentAgentR envOkEmpty modelCeiling "go" "folder" none).text =
      "done\n\n(Note: Agent reached iteration limit)" :=
  ⟨rfl, rfl⟩

/-- C3 (amended): a thrown tool error is converted into an error-flagged
    result with a non-empty `Error: ...` message; an unknown tool name
    yields a successful (non-error-flagged) result carrying a JSON
    `Unknown tool` message; and every `tool_use` block still produces
    exactly one result, so the loop always proceeds with a full batch. -/
theorem toolErrors_flagged_unknownTool_plain :
    ∀ (env : AgentEnv) (name : String) (input : ToolInput) (folderId : String)
      (ideasFolderId : Option String) (id : String),
      (∀ e, executeTool env name input folderId ideasFolderId = Except.error e →
        mkToolResult id (executeTool env name input folderId ideasFolderId) =
          ⟨id, "Error: " ++ e, true⟩ ∧ "Error: " ++ e ≠ "")
      ∧ (isKnownToolName name = false →
          executeTool env name input folderId ideasFolderId =
            Except.ok (compactErrorJson ("Unknown tool: " ++ name)) ∧
          (mkToolResult id
            (executeTool env name input folderId ideasFolderId)).is_error = false)
      ∧ (∀ blocks : List ContentBlock,
          (buildToolResults env folderId ideasFolderId blocks).length =
            (blocks.filterMap (fun b =>
              match b with
              | ContentBlock.toolUse i _ _ => some i
              | _ => none)).length) := by
  intro env name input folderId ideasFolderId id
  refine ⟨?_, ?_, ?_⟩
  · intro e he
    rw [he]
    refine ⟨rfl, fun hc => ?_⟩
    have hlen := congrArg String.length hc
    rw [String.length_append] at hlen
    have h7 : ("Error: " : String).length = 7 := rfl
    have h0 : ("" : String).length = 0 := rfl
    rw [h7, h0] at hlen
    omega
  · intro hunk
    have hexec : executeTool env name input folderId ideasFolderId =
        Except.ok (compactErrorJson ("Unknown tool: " ++ name)) := by
      unfold executeTool
      split <;> simp_all [isKnownToolName]
    exact ⟨hexec, by rw [hexec]; rfl⟩
  · intro blocks
    induction blocks with
    | nil => rfl
    | cons b bs ih =>
      cases b with
      | text t => simpa [buildToolResults] using ih
      | toolUse i nm inp =>
        simp only [buildToolResults, List.filterMap_cons] at ih ⊢
        simpa using ih

/-- Witness for C3: a throwing collaborator yields the flagged result, and
    an unregistered name yields the JSON message. -/
theorem toolErrors_flagged_unknownTool_plain_witness :
    mkToolResult "w1" (executeTool envThrow "list_interviews" [] "f" none) =
      ⟨"w1", "Error: boom", true⟩ ∧
    executeTool envThrow "nonexistent" [] "f" none =
      Except.ok (compactErrorJson ("Unknown tool: " ++ "nonexistent")) :=
  ⟨((toolErrors_flagged_unknownTool_plain envThrow "list_interviews" [] "f" none
      "w1").1 "boom" rfl).1,
   ((toolErrors_flagged_unknownTool_plain envThrow "nonexistent" [] "f" none
      "w1").2.1 rfl).1⟩

/-- Counterexample for C3: an unknown tool name produces a result whose
    `is_error` flag is `false` (the JSON error text travels as a normal
    success payload). -/
theorem unknownTool_result_not_error_flagged :
    executeTool envOkEmpty "bogus" [] "f" none =
      Except.ok "\x7b\"error\":\"Unknown tool: bogus\"\x7d" ∧
    (mkToolResult "id9" (executeTool envOkEmpty "bogus" [] "f" none)).is_error =
      false :=
  ⟨rfl, rfl⟩

/-- Looking a key up in the list filtered to that key is the same as
    looking it up in the original list. -/
theorem lookup_filter_key (k : String) :
    ∀ input : ToolInput,
      (input.filter (fun kv => kv.1 = k)).lookup k = input.lookup k := by
  intro input
  induction input with
  | nil => rfl
  | cons kv rest ih =>
    by_cases h : kv.1 = k
    · simp [List.filter_cons, h, List.lookup, ih]
    · have hk : ¬(k = kv.1) := fun hkk => h hkk.symm
      have hbeq : (k == kv.1) = false := beq_eq_false_iff_ne.mpr hk
      simp [List.filter_cons, h, List.lookup, hbeq, ih]

/-- C8 (amended): `executeTool` performs no schema validation — the
    `read_interview` handler forwards the possibly-missing `documentId`
    straight to the collaborator; a collaborator exception is what turns
    into the error-flagged result; and fields other than the declared one
    are never read. -/
theorem executeTool_no_validation_forwards_missing :
    ∀ (env : AgentEnv) (input : ToolInput) (folderId : String)
      (ideasFolderId : Option String) (id : String),
      executeTool env "read_interview" input folderId ideasFolderId =
        (env.getInterview (getStr input "documentId")).map stringifyInterviewDoc
      ∧ (∀ e, env.getInterview (getStr input "documentId") = Except.error e →
          (mkToolResult id
            (executeTool env "read_interview" input folderId
              ideasFolderId)).is_error = true)
      ∧ executeTool env "read_interview" input folderId ideasFolderId =
          executeTool env "read_interview"
            (input.filter (fun kv => kv.1 = "documentId")) folderId ideasFolderId := by
  intro env input folderId ideasFolderId id
  have hmap : executeTool env "read_interview" input folderId ideasFolderId =
      (env.getInterview (getStr input "documentId")).map stringifyInterviewDoc := by
    cases h : env.getInterview (getStr input "documentId") <;>
      simp [executeTool, h, Except.map, bind, Except.bind, pure, Except.pure]
  refine ⟨hmap, ?_, ?_⟩
  · intro e he
    rw [hmap, he]
    rfl
  · have hg : getStr (input.filter (fun kv => kv.1 = "documentId")) "documentId" =
        getStr input "documentId" := by
      simp only [getStr, lookup_filter_key]
    simp only [executeTool, hg]

/-- Witness for C8 (amended): with a collaborator that rejects the missing
    id, the loop-level result is error-flagged. -/
theorem executeTool_no_validation_forwards_missing_witness :
    (mkToolResult "w2" (executeTool envThrow "read_interview" [] "f" none)).is_error =
      true :=
  (executeTool_no_validation_forwards_missing envThrow [] "f" none "w2").2.1
    "invalid document id" rfl

/-- Counterexample for C8: an empty input (required `documentId` missing)
    still reaches the collaborator and yields a successful, unflagged
    result — no validation error is produced. -/
theorem missingRequiredField_invokes_collaborator :
    executeTool envOkEmpty "read_interview" [] "f" none =
      Except.ok (stringifyInterviewDoc docX) ∧
    (mkToolResult "id3" (executeTool envOkEmpty "read_interview" [] "f" none)).is_error =
      false :=
  ⟨rfl, rfl⟩

end GhostAuto
